import Mathlib

/-!
Verification of the extraction-and-normalization pipeline of a web-scraping
program (src/main.py): the topic extractor (get_topics), the repository
extractor (get_repo_info), the magnitude parser (parse_star_count) and the
filename sanitizer (sanitize_filename), shallowly embedded in Lean.

Python strings are modelled as Lean strings / lists of characters; the
string methods used by the program (strip, lower, isalnum) are modelled on
their ASCII behaviour, which covers every character the program's claims
are about.  Python float arithmetic is modelled exactly: a decimal literal
is parsed to an exact fraction and rounded to the nearest IEEE-754 binary64
value (round to nearest, ties to even), and the subsequent multiplication
rounds again, as the hardware does.  Fractions are kept unnormalized so
that every computation reduces inside the kernel.
-/

/-! ## Python string primitives -/

/-- Model of str.lower restricted to ASCII: uppercase letters are mapped to
their lowercase counterparts, every other character is unchanged. -/
def pyToLower (c : Char) : Char :=
  match c with
  | 'A' => 'a' | 'B' => 'b' | 'C' => 'c' | 'D' => 'd' | 'E' => 'e' | 'F' => 'f'
  | 'G' => 'g' | 'H' => 'h' | 'I' => 'i' | 'J' => 'j' | 'K' => 'k' | 'L' => 'l'
  | 'M' => 'm' | 'N' => 'n' | 'O' => 'o' | 'P' => 'p' | 'Q' => 'q' | 'R' => 'r'
  | 'S' => 's' | 'T' => 't' | 'U' => 'u' | 'V' => 'v' | 'W' => 'w' | 'X' => 'x'
  | 'Y' => 'y' | 'Z' => 'z'
  | c => c

/-- Model of str.lower on whole strings. -/
def pyLower (s : String) : String :=
  String.mk (s.data.map pyToLower)

/-- Model of str.strip with no argument: drop whitespace from both ends. -/
def pyStripL (cs : List Char) : List Char :=
  ((cs.dropWhile Char.isWhitespace).reverse.dropWhile Char.isWhitespace).reverse

/-- Model of str.strip on whole strings. -/
def pyStripS (s : String) : String :=
  String.mk (pyStripL s.data)

/-! ## Exact model of Python float arithmetic

A Python float is a binary64 value; all values arising in this program are
zero or of normal magnitude, far away from overflow and subnormal
territory, so a float is an exact dyadic rational and arithmetic on floats
is exact rational arithmetic followed by rounding to 53 significant bits
(round to nearest, ties to even). -/

/-- Unnormalized exact fraction num / den; den is positive in every use. -/
structure Frac where
  num : Int
  den : Int
deriving DecidableEq, Repr

/-- Nearest integer to n / d (for d > 0), ties going to the even integer. -/
def roundHalfEvenFrac (n d : Int) : Int :=
  let q := n.fdiv d
  let r := n - q * d
  if 2 * r < d then q
  else if d < 2 * r then q + 1
  else if q % 2 = 0 then q else q + 1

def expSearchUp (n d : Int) : Nat → Nat → Nat
  | 0, e => e
  | fuel + 1, e => if 2 ^ (e + 1) * d ≤ n then expSearchUp n d fuel (e + 1) else e

def expSearchDown (n d : Int) : Nat → Nat → Nat
  | 0, k => k
  | fuel + 1, k => if d ≤ 2 ^ k * n then k else expSearchDown n d fuel (k + 1)

/-- For n, d > 0: the binary exponent e with 2^e ≤ n/d < 2^(e+1). -/
def fexp (n d : Int) : Int :=
  if d ≤ n then (expSearchUp n d 1100 0 : Int)
  else -(expSearchDown n d 1100 1 : Int)

/-- Round a positive fraction to the nearest binary64 value (normal range):
scale to a 53-bit mantissa, round ties-to-even, scale back. -/
def roundPosToDouble (x : Frac) : Frac :=
  let e := fexp x.num x.den
  let mn : Int := if e ≤ 52 then x.num * 2 ^ ((52 - e).toNat) else x.num
  let md : Int := if e ≤ 52 then x.den else x.den * 2 ^ ((e - 52).toNat)
  let mr := roundHalfEvenFrac mn md
  if 52 ≤ e then ⟨mr * 2 ^ ((e - 52).toNat), 1⟩ else ⟨mr, 2 ^ ((52 - e).toNat)⟩

/-- Round an exact fraction to the binary64 value nearest to it. -/
def roundToDouble (x : Frac) : Frac :=
  if x.num = 0 then ⟨0, 1⟩
  else if x.num < 0 then
    let r := roundPosToDouble ⟨-x.num, x.den⟩
    ⟨-r.num, r.den⟩
  else roundPosToDouble x

/-- Model of int(f) on a float value: truncation toward zero. -/
def ftrunc (x : Frac) : Int := x.num.tdiv x.den

/-- Accumulate a list of decimal digit characters into a natural number. -/
def natOfDigits (cs : List Char) : Nat :=
  cs.foldl (fun a c => a * 10 + (c.toNat - 48)) 0

/-- Parse a fixed-point decimal literal (optional sign, digits, at most one
point, at least one digit) into an exact fraction.  Exponent notation and
the inf / nan spellings accepted by Python float are not used by this
program and are not modelled. -/
def parseDecimal (cs : List Char) : Option Frac :=
  let sgn : Int := match cs with
    | '-' :: _ => -1
    | _ => 1
  let body : List Char := match cs with
    | '-' :: t => t
    | '+' :: t => t
    | t => t
  let ip := body.takeWhile (fun c => c ≠ '.')
  let rest := body.dropWhile (fun c => c ≠ '.')
  match rest with
  | [] =>
    if (!ip.isEmpty) && ip.all Char.isDigit then
      some ⟨sgn * (natOfDigits ip : Int), 1⟩
    else none
  | _ :: fp =>
    if (!ip.isEmpty || !fp.isEmpty) && ip.all Char.isDigit && fp.all Char.isDigit then
      some ⟨sgn * ((natOfDigits ip : Int) * 10 ^ fp.length + (natOfDigits fp : Int)),
            (10 : Int) ^ fp.length⟩
    else none

/-- Model of the Python builtin float applied to a string: surrounding
whitespace is ignored, the decimal value is parsed exactly and rounded to
the nearest binary64 value; none models the ValueError raised on text that
is not a numeric literal. -/
def pyFloat (cs : List Char) : Option Frac :=
  (parseDecimal (pyStripL cs)).map roundToDouble

/-! ## MagnitudeParser: parse_star_count (src/main.py lines 157-182) -/

/-- Kinds of exception the embedded code can raise. -/
inductive PyError where
  /-- IndexError: sequence index out of range. -/
  | indexError : PyError
  /-- TypeError: e.g. concatenating a string with None. -/
  | typeError : PyError
  /-- The ValueError raised by parse_star_count; carries the text of the
  offending (suffix-stripped) numeric part, as in the message
  "Invalid format: ...". -/
  | invalidMagnitude : String → PyError
deriving DecidableEq, Repr

/-- The suffix_multipliers dictionary of parse_star_count: k, m, b. -/
def suffix_multipliers (c : Char) : Option Int :=
  if c = 'k' then some 1000
  else if c = 'm' then some 1000000
  else if c = 'b' then some 1000000000
  else none

/-- The characters of stars.strip().lower(), the value the rest of
parse_star_count works on. -/
def lowerStripped (s : String) : List Char :=
  (pyStripL s.data).map pyToLower

/-- Body of parse_star_count after stars.strip().lower(): look at the last
character (stars[-1] raises IndexError on the empty string), strip a
recognized suffix and record its multiplier, then compute
int(float(stars) * multiplier); float raising ValueError is re-raised as
the "Invalid format" ValueError carrying the suffix-stripped text. -/
def parseMagnitude (stars : List Char) : Except PyError Int :=
  match stars.getLast? with
  | none => Except.error PyError.indexError
  | some last =>
    let multiplier : Int := match suffix_multipliers last with
      | some m => m
      | none => 1
    let body : List Char := match suffix_multipliers last with
      | some _ => stars.dropLast
      | none => stars
    match pyFloat body with
    | none => Except.error (PyError.invalidMagnitude (String.mk body))
    | some x => Except.ok (ftrunc (roundToDouble ⟨x.num * multiplier, x.den⟩))

/-- parse_star_count (src/main.py lines 157-182). -/
def parse_star_count (stars : String) : Except PyError Int :=
  parseMagnitude (lowerStripped stars)

/-- True exactly when a parse_star_count outcome is the ValueError raised
at line 182 ("Invalid format: ..."). -/
def isInvalidMagnitude (x : Except PyError Int) : Bool :=
  match x with
  | Except.error (PyError.invalidMagnitude _) => true
  | _ => false

deriving instance DecidableEq for Except

/-! ## Documents

A fetched and parsed page is modelled by what the two extractors read from
it through BeautifulSoup: the ordered sequences of matched tags, each tag
reduced to the fields the code accesses (its text and, for anchors, its
href attribute, which tag.get returns as None when absent).  A failed
fetch (requests raising) is modelled by the whole document being none. -/

/-- The BASE_URL global of src/main.py (line 15). -/
def BASE_URL : String := "https://github.com"

/-- URL resolution as the code performs it (lines 92 and 137): plain string
concatenation BASE_URL + href. -/
def resolveUrl (base ref : String) : String := base ++ ref

/-- An anchor tag as read by the extractors: its text and its href
attribute (none when the attribute is absent, as tag.get returns None). -/
structure ATag where
  text : String
  href : Option String
deriving DecidableEq, Repr

/-- One repository entry node: an h3 tag, reduced to the ordered list of
anchor tags that find_all("a") returns inside it. -/
structure Entry where
  a_tags : List ATag
deriving DecidableEq, Repr

/-- A parsed repository-listing page: the matched h3 entry tags and the
texts of the matched star-count span tags, in document order. -/
structure RepoDoc where
  repo_tags : List Entry
  star_tags : List String
deriving DecidableEq, Repr

/-- A parsed topic-index page: the texts of the matched title p tags and
description p tags, and the href attributes of the matched anchor tags. -/
structure TopicDoc where
  topics : List String
  descriptions : List String
  url_tags : List (Option String)
deriving DecidableEq, Repr

/-! ## TopicExtractor: get_topics (src/main.py lines 53-107) -/

/-- The batch built by get_topics on success. -/
structure TopicBatch where
  title : List String
  description : List String
  url : List String
deriving DecidableEq, Repr

/-- The urls list comprehension (lines 91-94): BASE_URL + tag.get("href")
for each matched anchor.  A missing href makes tag.get return None and the
concatenation raise TypeError, which the surrounding handler turns into an
empty result; none models that abort. -/
def buildUrls : List (Option String) → Option (List String)
  | [] => some []
  | none :: _ => none
  | some h :: rest => (buildUrls rest).map (fun us => resolveUrl BASE_URL h :: us)

/-- get_topics (src/main.py lines 53-107).  The input none models the fetch
failing (requests raising); the result none models the empty dict the
function returns on any failure, including the length-mismatch check at
line 97. -/
def get_topics : Option TopicDoc → Option TopicBatch
  | none => none
  | some d =>
    let topics := d.topics.map pyStripS
    let descriptions := d.descriptions.map pyStripS
    match buildUrls d.url_tags with
    | none => none
    | some urls =>
      if topics.length = descriptions.length ∧ descriptions.length = urls.length then
        some ⟨topics, descriptions, urls⟩
      else none

/-! ## RepositoryExtractor: get_repo_info (src/main.py lines 110-154) -/

/-- The repo_dict built by get_repo_info: four parallel columns. -/
structure RepoBatch where
  username : List String
  repo_name : List String
  stars : List Int
  repo_url : List String
deriving DecidableEq, Repr

/-- The values one loop iteration appends to the four columns. -/
structure Row where
  username : String
  repo_name : String
  stars : Int
  repo_url : String
deriving DecidableEq, Repr

/-- The body of one iteration of the loop at lines 133-143, up to the
appends, in evaluation order: a_tags[0].text (IndexError when the entry
has no anchors), a_tags[1].text (IndexError when the second anchor is
missing, i.e. fewer than two anchors), BASE_URL + a_tags[1].get("href")
(TypeError when the href is
absent), star_tags[i].text (IndexError when i is past the star list, so
the star text arrives as an Option), then parse_star_count. -/
def rowOf (e : Entry) (st : Option String) : Except PyError Row :=
  match e.a_tags with
  | [] => Except.error PyError.indexError
  | [_] => Except.error PyError.indexError
  | a0 :: a1 :: _ =>
    match a1.href with
    | none => Except.error PyError.typeError
    | some href =>
      match st with
      | none => Except.error PyError.indexError
      | some sttext =>
        match parse_star_count (pyStripS sttext) with
        | Except.error err => Except.error err
        | Except.ok n =>
          Except.ok ⟨pyStripS a0.text, pyStripS a1.text, n, resolveUrl BASE_URL href⟩

/-- The four appends of one successful iteration (lines 140-143). -/
def pushRow (b : RepoBatch) (r : Row) : RepoBatch :=
  ⟨b.username ++ [r.username], b.repo_name ++ [r.repo_name],
   b.stars ++ [r.stars], b.repo_url ++ [r.repo_url]⟩

/-- The for-loop at lines 133-143.  An exception in any iteration escapes
the loop into the handler at lines 150-152, so the batch built so far is
what the function returns: the error branch stops with the accumulator. -/
def repoLoop : List Entry → List String → RepoBatch → RepoBatch
  | [], _, acc => acc
  | e :: es, sts, acc =>
    match rowOf e sts.head? with
    | Except.error _ => acc
    | Except.ok r => repoLoop es sts.tail (pushRow acc r)

/-- The repo_dict initializer at line 120. -/
def emptyRepoBatch : RepoBatch := ⟨[], [], [], []⟩

/-- get_repo_info (src/main.py lines 110-154).  The input none models the
fetch or parse raising before the loop; repo_dict, initialized before the
try block, is returned in every case. -/
def get_repo_info : Option RepoDoc → RepoBatch
  | none => emptyRepoBatch
  | some doc => repoLoop doc.repo_tags doc.star_tags emptyRepoBatch

/-! ## sanitize_filename (src/main.py lines 202-212) -/

/-- The characters the sanitizer keeps besides alphanumerics. -/
def keepChars : List Char := " ._-()".data

/-- sanitize_filename (src/main.py lines 202-212): keep a character when
c.isalnum() or it is one of space, dot, underscore, hyphen, parentheses,
replace it with an underscore otherwise, then strip the joined result.
Alphanumeric is modelled on ASCII. -/
def sanitize_filename (name : String) : String :=
  String.mk (pyStripL (name.data.map
    (fun c => if c.isAlphanum ∨ c ∈ keepChars then c else '_')))

/-- Modelled from the spec: the per-character replacement C9 describes,
with no final strip — characters that are neither alphanumeric nor in
the kept set become an underscore, every other character is unchanged in
place. -/
def specCharMap (name : String) : List Char :=
  name.data.map (fun c => if ¬ (c.isAlphanum ∨ c ∈ keepChars) then '_' else c)

/-! ## Concrete documents used as test inputs -/

/-- Well-formed entries 1 and 2 of the five-entry listing document. -/
def entriesBefore : List Entry :=
  [⟨[⟨"alice", none⟩, ⟨"repo1", some "/alice/repo1"⟩]⟩,
   ⟨[⟨"bob", none⟩, ⟨"repo2", some "/bob/repo2"⟩]⟩]

/-- The malformed entry 3: its second anchor is missing. -/
def badEntry : Entry := ⟨[⟨"carol", none⟩]⟩

/-- Well-formed entries 4 and 5 of the five-entry listing document. -/
def entriesAfter : List Entry :=
  [⟨[⟨"dave", none⟩, ⟨"repo4", some "/dave/repo4"⟩]⟩,
   ⟨[⟨"erin", none⟩, ⟨"repo5", some "/erin/repo5"⟩]⟩]

/-- The five-entry listing document of the spec's test: five entry nodes,
five star nodes, entry 3 malformed. -/
def docFiveEntries : RepoDoc :=
  ⟨entriesBefore ++ badEntry :: entriesAfter, ["1", "2"] ++ ["3", "4", "5"]⟩

/-- The index document of the spec's test: 3 titles but 2 descriptions. -/
def docThreeTwo : TopicDoc :=
  ⟨["python", "java", "rust"], ["desc1", "desc2"],
   [some "/topics/python", some "/topics/java", some "/topics/rust"]⟩

/-! ## Helper predicates on loop iterations -/

/-- True when an iteration outcome is a successful row. -/
def isOkB (x : Except PyError Row) : Bool :=
  match x with
  | Except.ok _ => true
  | Except.error _ => false

/-- True when the entry and star lists have the same length and every
positional pair yields a successful row. -/
def allOk : List Entry → List String → Bool
  | [], [] => true
  | e :: es, st :: sts => isOkB (rowOf e (some st)) && allOk es sts
  | _, _ => false

/-- The successful rows of positionally paired entries and stars. -/
def okRows : List Entry → List String → List Row
  | e :: es, st :: sts =>
    (match rowOf e (some st) with
     | Except.ok r => r :: okRows es sts
     | Except.error _ => okRows es sts)
  | _, _ => []

/-! ## Lemmas on the string primitives -/

theorem ws_pyToLower (c : Char) : (pyToLower c).isWhitespace = c.isWhitespace := by
  unfold pyToLower
  split <;> rfl

theorem map_pyToLower_dropWhile (cs : List Char) :
    (cs.dropWhile Char.isWhitespace).map pyToLower =
      (cs.map pyToLower).dropWhile Char.isWhitespace := by
  induction cs with
  | nil => rfl
  | cons c t ih =>
    simp only [List.map_cons, List.dropWhile_cons, ws_pyToLower c]
    cases h : c.isWhitespace <;> simp [h, ih]

theorem map_pyToLower_pyStripL (cs : List Char) :
    (pyStripL cs).map pyToLower = pyStripL (cs.map pyToLower) := by
  unfold pyStripL
  rw [List.map_reverse, map_pyToLower_dropWhile, List.map_reverse,
    map_pyToLower_dropWhile]

/-! ## Claims about parse_star_count -/

/-- C3: parse_star_count maps each fixture input to the stated exact
integer, the fractional value times the suffix multiplier being truncated
toward zero (1.999k gives 1999, not 2000). -/
theorem parse_star_count_fixtures :
    parse_star_count "0" = Except.ok 0 ∧
    parse_star_count "934" = Except.ok 934 ∧
    parse_star_count "1.2k" = Except.ok 1200 ∧
    parse_star_count "2m" = Except.ok 2000000 ∧
    parse_star_count "1.5b" = Except.ok 1500000000 ∧
    parse_star_count "1.999k" = Except.ok 1999 := by
  decide

/-- C2, counterexample: on the empty string, parse_star_count fails with
IndexError (stars[-1] on an empty string), not with the InvalidMagnitude
ValueError the claim names. -/
theorem parse_star_count_empty_not_invalid_magnitude :
    parse_star_count "" = Except.error PyError.indexError ∧
    isInvalidMagnitude (parse_star_count "") = false := by
  decide

/-- C2, amended: parse_star_count "k" and parse_star_count "abc" fail with
the InvalidMagnitude ValueError reporting the suffix-stripped text ("" and
"abc" respectively), while parse_star_count "" fails with IndexError. -/
theorem parse_star_count_failure_modes :
    parse_star_count "k" = Except.error (PyError.invalidMagnitude "") ∧
    parse_star_count "abc" = Except.error (PyError.invalidMagnitude "abc") ∧
    parse_star_count "" = Except.error PyError.indexError := by
  decide

/-- C7: two inputs with the same lowercasing (in particular, inputs that
differ only in the letter case of a trailing magnitude suffix) parse
identically, since parse_star_count lowercases its stripped input before
doing anything else. -/
theorem parse_star_count_case_insensitive (s t : String)
    (h : pyLower s = pyLower t) : parse_star_count s = parse_star_count t := by
  have hd : s.data.map pyToLower = t.data.map pyToLower := congrArg String.data h
  unfold parse_star_count lowerStripped
  rw [map_pyToLower_pyStripL, map_pyToLower_pyStripL, hd]

/-- C7, witness: the inputs 3K and 3k satisfy the hypothesis and parse
identically. -/
theorem parse_star_count_case_insensitive_witness :
    pyLower "3K" = pyLower "3k" ∧ parse_star_count "3K" = parse_star_count "3k" :=
  ⟨by decide, parse_star_count_case_insensitive "3K" "3k" (by decide)⟩

/-! ## Claim about URL resolution -/

/-- C8: URL resolution in both extractors is plain string concatenation of
the base origin and the relative reference; in particular /topics/python
against https://github.com yields exactly https://github.com/topics/python,
with no separator inserted and no normalization. -/
theorem resolveUrl_is_concat :
    resolveUrl BASE_URL "/topics/python" = "https://github.com/topics/python" ∧
    ∀ base ref : String, resolveUrl base ref = base ++ ref :=
  ⟨rfl, fun _ _ => rfl⟩

/-! ## Lemmas on the repository-extraction loop -/

theorem rowOf_none_error (e : Entry) : isOkB (rowOf e none) = false := by
  rcases e with ⟨ats⟩
  rcases ats with _ | ⟨a0, ats⟩
  · rfl
  rcases ats with _ | ⟨a1, ats⟩
  · rfl
  rcases a1 with ⟨t, href⟩
  rcases href with _ | h <;> rfl

theorem repoLoop_cons (e : Entry) (es : List Entry) (sts : List String)
    (acc : RepoBatch) :
    repoLoop (e :: es) sts acc =
      match rowOf e sts.head? with
      | Except.error _ => acc
      | Except.ok r => repoLoop es sts.tail (pushRow acc r) := rfl

theorem pushRow_username (b : RepoBatch) (r : Row) :
    (pushRow b r).username.length = b.username.length + 1 := by
  simp [pushRow]

theorem repoLoop_length_le (es : List Entry) :
    ∀ (sts : List String) (acc : RepoBatch),
      (repoLoop es sts acc).username.length ≤
        acc.username.length + min es.length sts.length := by
  induction es with
  | nil => intro sts acc; simp [repoLoop]
  | cons e es ih =>
    intro sts acc
    cases h : rowOf e sts.head? with
    | error err =>
      rw [repoLoop_cons, h]
      exact Nat.le_add_right _ _
    | ok r =>
      cases sts with
      | nil =>
        have hb := rowOf_none_error e
        rw [show (([] : List String).head?) = none from rfl] at h
        rw [h] at hb
        simp [isOkB] at hb
      | cons st sts =>
        rw [repoLoop_cons, h, List.tail_cons]
        have h2 := ih sts (pushRow acc r)
        rw [pushRow_username] at h2
        simp only [List.length_cons, Nat.succ_min_succ]
        omega

/-- C5: the repository extractor never builds more rows than there are
positionally aligned pairs: the result length is bounded by the minimum of
the entry-node count and the star-node count, so five entries against four
star nodes give at most four rows. -/
theorem get_repo_info_length_le_min (doc : RepoDoc) :
    (get_repo_info (some doc)).username.length ≤
      min doc.repo_tags.length doc.star_tags.length := by
  have h := repoLoop_length_le doc.repo_tags doc.star_tags emptyRepoBatch
  simpa [get_repo_info, emptyRepoBatch] using h

theorem repoLoop_balanced (es : List Entry) :
    ∀ (sts : List String) (acc : RepoBatch),
      acc.repo_name.length = acc.username.length →
      acc.stars.length = acc.username.length →
      acc.repo_url.length = acc.username.length →
      (repoLoop es sts acc).repo_name.length = (repoLoop es sts acc).username.length ∧
      (repoLoop es sts acc).stars.length = (repoLoop es sts acc).username.length ∧
      (repoLoop es sts acc).repo_url.length = (repoLoop es sts acc).username.length := by
  induction es with
  | nil => intro sts acc h1 h2 h3; exact ⟨h1, h2, h3⟩
  | cons e es ih =>
    intro sts acc h1 h2 h3
    cases h : rowOf e sts.head? with
    | error err => rw [repoLoop_cons, h]; exact ⟨h1, h2, h3⟩
    | ok r =>
      rw [repoLoop_cons, h]
      exact ih sts.tail (pushRow acc r) (by simp [pushRow, h1]) (by simp [pushRow, h2])
        (by simp [pushRow, h3])

/-- C10: in every result of the repository extractor the four columns have
equal length — a row is never half-appended, even when the loop stops at a
failing entry. -/
theorem get_repo_info_columns_equal_length (d : Option RepoDoc) :
    (get_repo_info d).repo_name.length = (get_repo_info d).username.length ∧
    (get_repo_info d).stars.length = (get_repo_info d).username.length ∧
    (get_repo_info d).repo_url.length = (get_repo_info d).username.length := by
  cases d with
  | none => exact ⟨rfl, rfl, rfl⟩
  | some doc =>
    exact repoLoop_balanced doc.repo_tags doc.star_tags emptyRepoBatch rfl rfl rfl

/-- C6: the repository extractor always returns the batch with its four
columns — emptyRepoBatch when the fetch or parse failed upstream (input
none) and when the document yields no entry nodes — never an absent
result. -/
theorem get_repo_info_never_absent :
    get_repo_info none = emptyRepoBatch ∧
    ∀ doc : RepoDoc, doc.repo_tags = [] → get_repo_info (some doc) = emptyRepoBatch := by
  refine ⟨rfl, fun doc h => ?_⟩
  simp [get_repo_info, h, repoLoop]

/-- C6, witness: a document with no entry nodes (and one stray star node)
yields the empty four-column batch. -/
theorem get_repo_info_never_absent_witness :
    get_repo_info (some ⟨[], ["7"]⟩) = emptyRepoBatch :=
  get_repo_info_never_absent.2 ⟨[], ["7"]⟩ rfl

theorem repoLoop_ok_front (es1 : List Entry) :
    ∀ (sts1 : List String), allOk es1 sts1 = true →
      ∀ (es2 : List Entry) (sts2 : List String) (acc : RepoBatch),
        repoLoop (es1 ++ es2) (sts1 ++ sts2) acc =
          repoLoop es2 sts2 ((okRows es1 sts1).foldl pushRow acc) := by
  induction es1 with
  | nil =>
    intro sts1 hok es2 sts2 acc
    cases sts1 with
    | nil => rfl
    | cons st sts => simp [allOk] at hok
  | cons e es ih =>
    intro sts1 hok es2 sts2 acc
    cases sts1 with
    | nil => simp [allOk] at hok
    | cons st sts =>
      rw [show allOk (e :: es) (st :: sts) =
            (isOkB (rowOf e (some st)) && allOk es sts) from rfl,
        Bool.and_eq_true] at hok
      cases hr : rowOf e (some st) with
      | error err => rw [hr] at hok; simp [isOkB] at hok
      | ok r =>
        rw [List.cons_append, List.cons_append, repoLoop_cons]
        rw [show ((st :: (sts ++ sts2)).head?) = some st from rfl] at *
        rw [hr, List.tail_cons]
        rw [show okRows (e :: es) (st :: sts) =
              (match rowOf e (some st) with
               | Except.ok r => r :: okRows es sts
               | Except.error _ => okRows es sts) from rfl, hr]
        rw [List.foldl_cons]
        exact ih sts hok.2 es2 sts2 (pushRow acc r)

theorem repoLoop_abort (bad : Entry) (es : List Entry) (sts : List String)
    (acc : RepoBatch) (hbad : isOkB (rowOf bad sts.head?) = false) :
    repoLoop (bad :: es) sts acc = acc := by
  cases hr : rowOf bad sts.head? with
  | error err => rw [repoLoop_cons, hr]
  | ok r => rw [hr] at hbad; simp [isOkB] at hbad

/-- C1, amended: a per-entry extraction failure in the repository extractor
aborts the rest of the page, not just the offending entry: when every entry
before position j succeeds and entry j fails, the result is exactly the
rows of the first j entries, in order; the entries after the failure are
dropped.  In particular the five-entry document whose third entry lacks its
second anchor yields a 2-row batch, not the 4-row batch the claim states. -/
theorem get_repo_info_aborts_at_first_bad_entry
    (es1 es2 : List Entry) (sts1 sts2 : List String) (bad : Entry)
    (hok : allOk es1 sts1 = true)
    (hbad : isOkB (rowOf bad sts2.head?) = false) :
    get_repo_info (some ⟨es1 ++ bad :: es2, sts1 ++ sts2⟩) =
      (okRows es1 sts1).foldl pushRow emptyRepoBatch := by
  show repoLoop (es1 ++ bad :: es2) (sts1 ++ sts2) emptyRepoBatch = _
  rw [repoLoop_ok_front es1 sts1 hok (bad :: es2) sts2 emptyRepoBatch,
    repoLoop_abort bad es2 sts2 _ hbad]

/-- C1, witness for the amended claim: in the five-entry document the first
two pairs are well-formed, entry 3 fails, and the extractor returns exactly
the two rows of entries 1 and 2. -/
theorem get_repo_info_aborts_at_first_bad_entry_witness :
    allOk entriesBefore ["1", "2"] = true ∧
    isOkB (rowOf badEntry (["3", "4", "5"].head?)) = false ∧
    get_repo_info (some ⟨entriesBefore ++ badEntry :: entriesAfter,
        ["1", "2"] ++ ["3", "4", "5"]⟩) =
      (okRows entriesBefore ["1", "2"]).foldl pushRow emptyRepoBatch :=
  ⟨by decide, by decide,
    get_repo_info_aborts_at_first_bad_entry entriesBefore entriesAfter
      ["1", "2"] ["3", "4", "5"] badEntry (by decide) (by decide)⟩

/-- C1, counterexample: on the five-entry document with entry 3 malformed
the extractor returns 2 rows (the entries before the failure), not the
4-row batch the claim states, because the remaining entries are not
processed. -/
theorem get_repo_info_five_entries_two_rows :
    (get_repo_info (some docFiveEntries)).username = ["alice", "bob"] ∧
    (get_repo_info (some docFiveEntries)).username.length ≠ 4 := by
  decide

/-! ## Claims about the topic extractor -/

theorem buildUrls_length (l : List (Option String)) :
    ∀ us, buildUrls l = some us → us.length = l.length := by
  induction l with
  | nil => intro us h; cases h; rfl
  | cons o t ih =>
    intro us h
    cases o with
    | none => simp [buildUrls] at h
    | some href =>
      rw [show buildUrls (some href :: t) =
            (buildUrls t).map (fun us => resolveUrl BASE_URL href :: us) from rfl] at h
      cases hbt : buildUrls t with
      | none => rw [hbt] at h; simp at h
      | some vs =>
        rw [hbt, show (some vs).map (fun us => resolveUrl BASE_URL href :: us) =
              some (resolveUrl BASE_URL href :: vs) from rfl] at h
        cases h
        simp [ih vs hbt]

/-- C4: when the three extracted sequences of an index document differ in
length, get_topics returns the empty result (the empty dict, modelled as
none) and never a partial pairing. -/
theorem get_topics_mismatch_empty (d : TopicDoc)
    (h : ¬ (d.topics.length = d.descriptions.length ∧
            d.descriptions.length = d.url_tags.length)) :
    get_topics (some d) = none := by
  have hu : get_topics (some d) =
      (match buildUrls d.url_tags with
       | none => none
       | some urls =>
         if (d.topics.map pyStripS).length = (d.descriptions.map pyStripS).length ∧
            (d.descriptions.map pyStripS).length = urls.length then
           some ⟨d.topics.map pyStripS, d.descriptions.map pyStripS, urls⟩
         else none) := rfl
  rw [hu]
  cases hb : buildUrls d.url_tags with
  | none => rfl
  | some urls =>
    have hlen : urls.length = d.url_tags.length := buildUrls_length d.url_tags urls hb
    refine if_neg (fun hc => h ?_)
    simp only [List.length_map] at hc
    exact ⟨hc.1, hc.2.trans hlen⟩

/-- C4, witness: three titles against two descriptions (and three anchors)
yield the empty result. -/
theorem get_topics_mismatch_empty_witness :
    ¬ (docThreeTwo.topics.length = docThreeTwo.descriptions.length ∧
       docThreeTwo.descriptions.length = docThreeTwo.url_tags.length) ∧
    get_topics (some docThreeTwo) = none :=
  ⟨by decide, get_topics_mismatch_empty docThreeTwo (by decide)⟩

/-! ## Claims about sanitize_filename -/

/-- C9, counterexample: the claim says every kept character stays in place,
but sanitize_filename also strips leading and trailing whitespace after the
replacement: on the input consisting of a space and the letter a it returns
just the letter, while the claimed pure per-character replacement keeps the
space. -/
theorem sanitize_filename_strips_whitespace :
    sanitize_filename " a" = "a" ∧
    String.mk (specCharMap " a") = " a" ∧
    sanitize_filename " a" ≠ " a" := by
  decide

/-- C9, amended: sanitize_filename is the per-character replacement the
claim describes (characters neither alphanumeric nor in the kept set become
an underscore, the rest stay in place, so the mapped text has the length of
the input), followed by stripping leading and trailing whitespace from the
result. -/
theorem sanitize_filename_is_charmap_then_strip (name : String) :
    sanitize_filename name = String.mk (pyStripL (specCharMap name)) ∧
    (specCharMap name).length = name.data.length := by
  constructor
  · unfold sanitize_filename specCharMap
    congr 2
    apply List.map_congr_left
    intro c _
    by_cases hc : (c.isAlphanum ∨ c ∈ keepChars) <;> simp [hc]
  · simp [specCharMap]
